import Mathlib

/-!
Shallow embedding of the kubeclean rule-evaluation and batched-deletion core.

Sources embedded here:
- `internal/controller/pod_clean_controller.go`: `ShouldCleanupPod`,
  `BatchDeletePods` (its outer index loop and inner per-pod loop).
- `internal/cleanup_config/cleanup_config_utils.go`: `LoadConfig`,
  `LoadConfigFromFile`, `WatchConfig` (one tick of its poll loop).
- the configuration types file: `CleanupConfig`, `PodCleanupConfig`,
  `PodCleanRule`, `LabelSelector`, `Duration` with its YAML unmarshalling,
  `SetDefaults` and the three `Validate` methods.

Conventions: Go `time.Duration` / modification times are embedded as `Int`
nanoseconds (the Go code only compares and subtracts them, so int64 overflow
is irrelevant to the claims).  External stdlib behaviour is a parameter:
`time.ParseDuration` is a function `String → Option Int`, the Kubernetes
delete call is a function `Pod → Bool` (true = success), and file-system
reads/stats are passed into the watcher tick as values.  Go map indexing
returns the zero value `""` for a missing key; `annGet` mirrors that, while
the comma-ok form is `annLookup`.
-/

namespace Kubeclean

/-- Embeds the Go `Duration` wrapper struct (nanoseconds). -/
structure Duration where
  duration : Int
deriving DecidableEq, Repr

/-- Embeds `LabelSelector` / `metav1.LabelSelector` as used by the config:
`matchLabels` key/value pairs. -/
structure LabelSelector where
  matchLabels : List (String × String)
deriving DecidableEq, Repr

/-- Embeds `PodCleanRule` from the configuration types file. -/
structure PodCleanRule where
  name : String
  enabled : Bool
  selector : LabelSelector
  phase : String
  ttl : Duration
  namespaces : List String
deriving DecidableEq, Repr

/-- Embeds `PodCleanupConfig`. -/
structure PodCleanupConfig where
  enabled : Bool
  rules : List PodCleanRule
deriving DecidableEq, Repr

/-- Embeds the root `CleanupConfig`. -/
structure CleanupConfig where
  dryRun : Bool
  batchSize : Int
  podCleanupConfig : PodCleanupConfig
deriving DecidableEq, Repr

/-- The fields of `corev1.Pod` that the controller reads: name, namespace,
labels, `Status.Phase` (as a string), `CreationTimestamp` (nanoseconds) and
the annotations map (as an association list). -/
structure Pod where
  name : String
  ns : String
  labels : List (String × String)
  phase : String
  creationTimestamp : Int
  annotations : List (String × String)
deriving DecidableEq, Repr

/-- Comma-ok lookup in a Go map modelled as an association list:
`v, ok := m[k]`. -/
def annLookup (anns : List (String × String)) (key : String) : Option String :=
  match anns.find? (fun kv => kv.1 == key) with
  | some kv => some kv.2
  | none => none

/-- Plain Go map indexing `m[k]`: returns the zero value `""` when the key is
absent. -/
def annGet (anns : List (String × String)) (key : String) : String :=
  (annLookup anns key).getD ""

/-- The well-known annotation key `kubeclean/disabled`. -/
def disabledAnnKey : String := "kubeclean/disabled"

/-- The well-known annotation key `kubeclean/ttl`. -/
def ttlAnnKey : String := "kubeclean/ttl"

/-- The TTL-override resolution inside `ShouldCleanupPod`
(pod_clean_controller.go lines 123-130): start from `rule.TTL.Duration`;
if the pod has a `kubeclean/ttl` annotation and `time.ParseDuration`
(the parameter `parseDur`) accepts it, use the parsed value; on a parse
error the code only logs and keeps the rule TTL. -/
def effectiveTTL (parseDur : String → Option Int) (pod : Pod)
    (rule : PodCleanRule) : Int :=
  match annLookup pod.annotations ttlAnnKey with
  | some ttlStr =>
    match parseDur ttlStr with
    | some parsedTTL => parsedTTL
    | none => rule.ttl.duration
  | none => rule.ttl.duration

/-- Embeds `(*PodMatcher).ShouldCleanupPod` (pod_clean_controller.go lines
114-134).  `now` stands for the current clock so that
`time.Since(pod.CreationTimestamp.Time)` becomes
`now - pod.creationTimestamp`.  Note the first guard compares
`string(pod.Status.Phase) != rule.Phase` unconditionally — there is no
special case for an empty `rule.Phase`. -/
def ShouldCleanupPod (parseDur : String → Option Int) (now : Int) (pod : Pod)
    (rule : PodCleanRule) : Bool :=
  if pod.phase ≠ rule.phase then
    false
  else if annGet pod.annotations disabledAnnKey = "true" then
    false
  else
    decide (now - pod.creationTimestamp > effectiveTTL parseDur pod rule)

/-- One observable action of the inner per-pod loop of `BatchDeletePods`:
either the dry-run log line, or an actual call of the external delete
capability together with its outcome (`ok = true` means the delete
succeeded). -/
inductive DeleteAction where
  | dryRunLog : (name : String) → (ns : String) → DeleteAction
  | deleteCall : (name : String) → (ns : String) → (ok : Bool) → DeleteAction
deriving DecidableEq, Repr

/-- Whether an action is an actual call of the external delete capability. -/
def DeleteAction.isDeleteCall : DeleteAction → Bool
  | .dryRunLog _ _ => false
  | .deleteCall _ _ _ => true

/-- The pod identity (name, namespace) an action concerns. -/
def DeleteAction.target : DeleteAction → String × String
  | .dryRunLog n ns => (n, ns)
  | .deleteCall n ns _ => (n, ns)

/-- Embeds the inner loop of `BatchDeletePods` (pod_clean_controller.go lines
148-158): for each pod of the batch, under dry-run only log and continue;
otherwise call the external delete capability (`deleteOk`, true = success);
a failed delete is logged and the loop continues. -/
def processBatch (deleteOk : Pod → Bool) (dryRun : Bool) (batch : List Pod) :
    List DeleteAction :=
  batch.map fun pod =>
    if dryRun then DeleteAction.dryRunLog pod.name pod.ns
    else DeleteAction.deleteCall pod.name pod.ns (deleteOk pod)

/-- Embeds the outer index loop of `BatchDeletePods`
(`for i := 0; i < len(pods); i += batchSize`, lines 139-146), returning the
successive `pods[i:end]` slices with `end = min(i+batchSize, len(pods))`.
The Go loop does not terminate when `batchSize = 0` and `pods` is non-empty
(the index never advances); that is proved below via `batchLoopStep` and
`batchLoopGuard`.  To stay a total function this definition carries
`0 < batchSize` inside its guard, so its `batchSize = 0` value (the empty
list) is a termination artifact and every statement about the slices
assumes `1 ≤ batchSize`. -/
def batchLoop (pods : List Pod) (batchSize : Nat) (i : Nat) :
    List (List Pod) :=
  if _h : i < pods.length ∧ 0 < batchSize then
    ((pods.drop i).take (min (i + batchSize) pods.length - i)) ::
      batchLoop pods batchSize (i + batchSize)
  else []
termination_by pods.length - i
decreasing_by omega

/-- The index update of the outer loop of `BatchDeletePods`:
one execution of `i += batchSize`. -/
def batchLoopStep (batchSize i : Nat) : Nat := i + batchSize

/-- The guard of the outer loop of `BatchDeletePods`: `i < len(pods)`. -/
def batchLoopGuard (pods : List Pod) (i : Nat) : Bool :=
  decide (i < pods.length)

/-- Everything observable about one run of `BatchDeletePods`: the batches the
outer loop sliced, the ordered actions of the inner loop, and the error value
the function returns to its caller. -/
structure BatchRunResult where
  batches : List (List Pod)
  actions : List DeleteAction
  err : Option String
deriving DecidableEq, Repr

/-- Embeds `BatchDeletePods` (pod_clean_controller.go lines 136-166).
The external delete capability is the parameter `deleteOk`.  The Go function
ends with an unconditional `return nil`, embedded as `err := none`. -/
def BatchDeletePods (deleteOk : Pod → Bool) (pods : List Pod)
    (batchSize : Nat) (dryRun : Bool) : BatchRunResult :=
  let batches := batchLoop pods batchSize 0
  { batches := batches
    actions := (batches.map (processBatch deleteOk dryRun)).flatten
    err := none }

/-- Embeds `(*CleanupConfig).SetDefaults` from the configuration types file:
if `BatchSize <= 0` set it to 10. -/
def CleanupConfig.SetDefaults (c : CleanupConfig) : CleanupConfig :=
  if c.batchSize ≤ 0 then { c with batchSize := 10 } else c

/-- Embeds `(*PodCleanRule).Validate`: disabled rules short-circuit to
success; otherwise name, then ttl, then filter presence are checked, first
failure wins. -/
def PodCleanRule.Validate (r : PodCleanRule) : Except String Unit :=
  if !r.enabled then Except.ok ()
  else if r.name = "" then Except.error "rule name must be provided"
  else if r.ttl.duration ≤ 0 then Except.error "ttl must be greater than zero"
  else if r.phase = "" ∧ r.selector.matchLabels.isEmpty then
    Except.error "either 'phase' or 'selector.matchLabels' must be specified"
  else Except.ok ()

/-- Embeds `(*PodCleanupConfig).Validate`: vacuously valid when disabled;
otherwise aggregates every failing rule's message (1-based index and name)
into one error string. -/
def PodCleanupConfig.Validate (p : PodCleanupConfig) : Except String Unit :=
  if !p.enabled then Except.ok ()
  else
    let errorMessages := p.rules.enum.foldl
      (fun acc (pair : Nat × PodCleanRule) =>
        match pair.2.Validate with
        | Except.error e =>
          acc ++ "rule " ++ toString (pair.1 + 1) ++ " (" ++ pair.2.name ++
            "): " ++ e ++ "\n"
        | Except.ok _ => acc) ""
    if errorMessages = "" then Except.ok ()
    else Except.error ("pod cleanup config validation errors:\n" ++
      errorMessages)

/-- Embeds `(*CleanupConfig).Validate`: a negative batch size is a hard
error, then the pod-cleanup block is validated and its error wrapped. -/
def CleanupConfig.Validate (c : CleanupConfig) : Except String Unit :=
  if c.batchSize < 0 then Except.error "batch size cannot be negative"
  else
    match c.podCleanupConfig.Validate with
    | Except.error e => Except.error ("pod cleanup config error: " ++ e)
    | Except.ok _ => Except.ok ()

/-!
YAML input model.  A payload that is syntactically well-formed YAML matching
the `CleanupConfig` structure is represented by `RawConfig`: every key is
optional (yaml.v2 leaves the Go zero value for an absent key), and a rule's
`ttl` value is kept as the written string, because `Duration.UnmarshalYAML`
receives it as a string and runs `time.ParseDuration` on it.
-/

/-- One element of `podCleanupConfig.rules` as written in the YAML payload. -/
structure RawRule where
  name : Option String
  enabled : Option Bool
  selector : Option LabelSelector
  phase : Option String
  ttl : Option String
  namespaces : Option (List String)
deriving DecidableEq, Repr

/-- The `podCleanupConfig` block as written in the YAML payload. -/
structure RawPodCleanupConfig where
  enabled : Option Bool
  rules : Option (List RawRule)
deriving DecidableEq, Repr

/-- A syntactically well-formed YAML payload for `CleanupConfig`. -/
structure RawConfig where
  dryRun : Option Bool
  batchSize : Option Int
  podCleanupConfig : Option RawPodCleanupConfig
deriving DecidableEq, Repr

/-- The error classes a load can produce, mirroring the wrapping in
`LoadConfig` / `LoadConfigFromFile`. -/
inductive LoadError where
  | parseError : (msg : String) → LoadError
  | invalidConfig : (msg : String) → LoadError
  | unreadableFile : (path : String) → LoadError
deriving DecidableEq, Repr

/-- Embeds `(*Duration).UnmarshalYAML` from the configuration types file:
the scalar is read as a string and handed to `time.ParseDuration`
(the parameter `parseDur`); a parse failure is an unmarshalling error. -/
def Duration.unmarshalYAML (parseDur : String → Option Int) (s : String) :
    Except String Duration :=
  match parseDur s with
  | some d => Except.ok ⟨d⟩
  | none => Except.error ("invalid duration \"" ++ s ++ "\"")

/-- yaml.v2 unmarshalling of one rule: absent keys leave the Go zero value;
a present `ttl` goes through `Duration.unmarshalYAML`, whose error (not a
type error) aborts the whole unmarshal immediately.  Whether the rule is
enabled plays no role here. -/
def unmarshalRule (parseDur : String → Option Int) (r : RawRule) :
    Except String PodCleanRule :=
  match (match r.ttl with
         | none => Except.ok (⟨0⟩ : Duration)
         | some s => Duration.unmarshalYAML parseDur s) with
  | Except.error e => Except.error e
  | Except.ok ttl =>
    Except.ok
      { name := r.name.getD ""
        enabled := r.enabled.getD false
        selector := r.selector.getD ⟨[]⟩
        phase := r.phase.getD ""
        ttl := ttl
        namespaces := r.namespaces.getD [] }

/-- yaml.v2 unmarshalling of the rule list, in document order; the first
failing rule aborts the whole unmarshal with its error. -/
def unmarshalRules (parseDur : String → Option Int) :
    List RawRule → Except String (List PodCleanRule)
  | [] => Except.ok []
  | r :: rest =>
    match unmarshalRule parseDur r with
    | Except.error e => Except.error e
    | Except.ok pr =>
      match unmarshalRules parseDur rest with
      | Except.error e => Except.error e
      | Except.ok prs => Except.ok (pr :: prs)

/-- yaml.v2 unmarshalling of the whole payload into `CleanupConfig`. -/
def unmarshalConfig (parseDur : String → Option Int) (raw : RawConfig) :
    Except String CleanupConfig :=
  match unmarshalRules parseDur
      ((raw.podCleanupConfig.getD ⟨none, none⟩).rules.getD []) with
  | Except.error e => Except.error e
  | Except.ok rules =>
    Except.ok
      { dryRun := raw.dryRun.getD false
        batchSize := raw.batchSize.getD 0
        podCleanupConfig :=
          { enabled := (raw.podCleanupConfig.getD ⟨none, none⟩).enabled.getD
              false
            rules := rules } }

/-- Embeds `LoadConfig` (cleanup_config_utils.go lines 14-26): unmarshal the
payload, then `Validate` the result; it calls nothing else — in particular
it never calls `SetDefaults`. -/
def LoadConfig (parseDur : String → Option Int) (data : RawConfig) :
    Except LoadError CleanupConfig :=
  match unmarshalConfig parseDur data with
  | Except.error msg =>
    Except.error (LoadError.parseError ("failed to unmarshal config: " ++ msg))
  | Except.ok config =>
    match config.Validate with
    | Except.error msg =>
      Except.error (LoadError.invalidConfig ("invalid config: " ++ msg))
    | Except.ok _ => Except.ok config

/-- Embeds `LoadConfigFromFile` (cleanup_config_utils.go lines 29-36): the
read result of the file is passed in (`none` = the read failed). -/
def LoadConfigFromFile (parseDur : String → Option Int) (path : String)
    (file : Option RawConfig) : Except LoadError CleanupConfig :=
  match file with
  | none => Except.error (LoadError.unreadableFile path)
  | some data => LoadConfig parseDur data

/-- The state the `WatchConfig` loop threads between ticks
(cleanup_config_utils.go lines 44-47 and 69-70): the tracked last
modification time and the live shared configuration `*currentConfig`. -/
structure WatchState where
  lastModTime : Int
  config : CleanupConfig
deriving DecidableEq, Repr

/-- Embeds one `ticker.C` iteration of `WatchConfig`
(cleanup_config_utils.go lines 53-72).  `statModTime` is the result of
`os.Stat` (`none` = stat error, otherwise the modification time) and `file`
is what `os.ReadFile` would return inside `LoadConfigFromFile`.  A stat
error, a non-advanced modification time, and a failed load all leave the
state untouched; only a successful load replaces the shared configuration
and advances the tracked modification time. -/
def WatchConfigTick (parseDur : String → Option Int) (path : String)
    (st : WatchState) (statModTime : Option Int) (file : Option RawConfig) :
    WatchState :=
  match statModTime with
  | none => st
  | some mt =>
    if mt > st.lastModTime then
      match LoadConfigFromFile parseDur path file with
      | Except.error _ => st
      | Except.ok newConfig => { lastModTime := mt, config := newConfig }
    else st

/-!
Concrete inputs used by claim-level theorems, counterexamples and witnesses.
-/

/-- A parse function that rejects every duration string. -/
def parseNone : String → Option Int := fun _ => none

/-- A pod in phase `Succeeded` with the test labels, created at time 0,
carrying no annotations. -/
def mkPod (name : String) : Pod :=
  { name := name, ns := "default", labels := [("app", "test")],
    phase := "Succeeded", creationTimestamp := 0, annotations := [] }

/-- The aged pod of the repository's controller test. -/
def podSucceededOld : Pod := mkPod "old-pod"

/-- A pod whose age will sit exactly on the TTL boundary. -/
def podBoundary : Pod := mkPod "boundary-pod"

/-- Five pods, for batch-partition scenarios. -/
def fivePods : List Pod :=
  [mkPod "p1", mkPod "p2", mkPod "p3", mkPod "p4", mkPod "p5"]

/-- An enabled rule with an empty `phase` and a non-empty selector: exactly
the shape `PodCleanRule.Validate` accepts as a selector-only rule. -/
def ruleSelectorOnly : PodCleanRule :=
  { name := "selector-only", enabled := true,
    selector := ⟨[("app", "test")]⟩, phase := "",
    ttl := ⟨3600000000000⟩, namespaces := [] }

/-- An enabled rule for phase `Succeeded` with a TTL of one hour
(3600000000000 ns). -/
def ruleSucceeded1h : PodCleanRule :=
  { name := "succeeded-pods", enabled := true,
    selector := ⟨[("app", "test")]⟩, phase := "Succeeded",
    ttl := ⟨3600000000000⟩, namespaces := ["default"] }

/-- A pod carrying a TTL override annotation that no duration parser
accepts. -/
def podBadOverride : Pod :=
  { name := "override-pod", ns := "default", labels := [("app", "test")],
    phase := "Succeeded", creationTimestamp := 0,
    annotations := [(ttlAnnKey, "garbage")] }

/-- A payload with `batchSize` absent and a vacuously valid (disabled)
pod-cleanup block. -/
def rawNoBatchSize : RawConfig :=
  { dryRun := none, batchSize := none,
    podCleanupConfig := some { enabled := some false, rules := none } }

/-- A disabled rule whose written `ttl` string `"1pk"` is not a valid
duration (the string the repository's own unmarshalling test uses). -/
def rawRuleBadTTL : RawRule :=
  { name := some "bad-ttl", enabled := some false, selector := none,
    phase := some "Succeeded", ttl := some "1pk", namespaces := none }

/-- A payload that is valid except that its (disabled) rule carries the
unparsable `ttl`. -/
def rawBadTTLConfig : RawConfig :=
  { dryRun := none, batchSize := some 10,
    podCleanupConfig :=
      some { enabled := some true, rules := some [rawRuleBadTTL] } }

/-- A configuration with batch size 0, as `LoadConfig` produces it for an
absent `batchSize`. -/
def cfgZeroBatch : CleanupConfig :=
  { dryRun := false, batchSize := 0,
    podCleanupConfig := { enabled := false, rules := [] } }

/-- A valid configuration a watcher may hold as its last-known-good value. -/
def cfgValid : CleanupConfig :=
  { dryRun := false, batchSize := 10,
    podCleanupConfig := { enabled := false, rules := [] } }

/-!
Helper lemmas about the outer loop of `BatchDeletePods`.
-/

/-- Unfolding lemma for `batchLoop` when the loop guard holds. -/
theorem batchLoop_cons (pods : List Pod) (B i : Nat) (h1 : i < pods.length)
    (h2 : 0 < B) :
    batchLoop pods B i =
      ((pods.drop i).take (min (i + B) pods.length - i)) ::
        batchLoop pods B (i + B) := by
  rw [batchLoop]
  simp [h1, h2]

/-- Unfolding lemma for `batchLoop` when the loop guard fails. -/
theorem batchLoop_nil (pods : List Pod) (B i : Nat)
    (h : ¬(i < pods.length ∧ 0 < B)) :
    batchLoop pods B i = [] := by
  rw [batchLoop]
  simp only [dif_neg h]

/-- The slices of `batchLoop` concatenate to the unprocessed suffix of the
input: no pod is dropped or duplicated by the batching. -/
theorem batchLoop_flatten (pods : List Pod) (B : Nat) (hB : 0 < B) :
    ∀ (m i : Nat), pods.length - i ≤ m →
      (batchLoop pods B i).flatten = pods.drop i := by
  intro m
  induction m with
  | zero =>
    intro i hi
    have hle : pods.length ≤ i := by omega
    rw [batchLoop_nil pods B i (by omega)]
    simp [List.drop_eq_nil_of_le hle]
  | succ m ih =>
    intro i hi
    by_cases hlt : i < pods.length
    · rw [batchLoop_cons pods B i hlt hB]
      rw [List.flatten_cons, ih (i + B) (by omega)]
      have h1 : min (i + B) pods.length - i = min B (pods.length - i) := by
        omega
      rw [h1]
      have h2 : (pods.drop i).take (min B (pods.length - i)) =
          (pods.drop i).take B := by
        rcases le_or_lt B (pods.length - i) with hc | hc
        · rw [min_eq_left hc]
        · have ha : (pods.drop i).length ≤ pods.length - i := by simp
          have hb : (pods.drop i).length ≤ B := by
            simp only [List.length_drop]
            omega
          rw [min_eq_right (le_of_lt hc), List.take_of_length_le ha,
            List.take_of_length_le hb]
      have h3 : pods.drop (i + B) = (pods.drop i).drop B := by
        rw [List.drop_drop, Nat.add_comm]
      rw [h2, h3, List.take_append_drop]
    · rw [batchLoop_nil pods B i (by omega)]
      have hle : pods.length ≤ i := by omega
      simp [List.drop_eq_nil_of_le hle]

/-- The number of slices `batchLoop` produces from position `i` is the
ceiling of the remaining length divided by the batch size. -/
theorem batchLoop_length (pods : List Pod) (B : Nat) (hB : 0 < B) :
    ∀ (m i : Nat), pods.length - i ≤ m →
      (batchLoop pods B i).length = (pods.length - i + B - 1) / B := by
  intro m
  induction m with
  | zero =>
    intro i hi
    rw [batchLoop_nil pods B i (by omega)]
    have h0 : pods.length - i = 0 := by omega
    rw [h0]
    simp only [List.length_nil]
    exact (Nat.div_eq_of_lt (by omega)).symm
  | succ m ih =>
    intro i hi
    by_cases hlt : i < pods.length
    · rw [batchLoop_cons pods B i hlt hB]
      rw [List.length_cons, ih (i + B) (by omega)]
      rcases le_or_lt pods.length (i + B) with hc | hc
      · have h0 : pods.length - (i + B) = 0 := by omega
        rw [h0]
        rw [Nat.div_eq_of_lt (by omega : 0 + B - 1 < B)]
        have h1 : pods.length - i + B - 1 = (pods.length - i - 1) + B := by
          omega
        rw [h1, Nat.add_div_right _ hB,
          Nat.div_eq_of_lt (by omega : pods.length - i - 1 < B)]
      · have h1 : pods.length - i + B - 1 =
            (pods.length - (i + B) + B - 1) + B := by omega
        rw [h1, Nat.add_div_right _ hB]
    · rw [batchLoop_nil pods B i (by omega)]
      have h0 : pods.length - i = 0 := by omega
      rw [h0]
      simp only [List.length_nil]
      exact (Nat.div_eq_of_lt (by omega)).symm

/-!
Helper lemmas about the inner loop of `BatchDeletePods` and about
`ShouldCleanupPod` and loading.
-/

/-- The inner loop acts on exactly the pods of the batch, in order. -/
theorem processBatch_length (deleteOk : Pod → Bool) (dryRun : Bool)
    (batch : List Pod) :
    (processBatch deleteOk dryRun batch).length = batch.length := by
  simp [processBatch]

/-- Under dry-run the inner loop produces only dry-run log actions. -/
theorem processBatch_dryRun_all (deleteOk : Pod → Bool) (batch : List Pod) :
    ((processBatch deleteOk true batch).all fun a => !a.isDeleteCall)
      = true := by
  simp [processBatch, DeleteAction.isDeleteCall]

/-- The pod identities the inner loop touches do not depend on the dry-run
flag nor on the delete outcomes. -/
theorem processBatch_target (deleteOk : Pod → Bool) (dryRun : Bool)
    (batch : List Pod) :
    (processBatch deleteOk dryRun batch).map DeleteAction.target =
      batch.map fun p => (p.name, p.ns) := by
  cases dryRun <;> simp [processBatch, DeleteAction.target]

/-- A pure characterization of `ShouldCleanupPod`: the phase gate, the
disable-override gate and the strict age test, conjoined. -/
theorem shouldCleanupPod_eq (parseDur : String → Option Int) (now : Int)
    (pod : Pod) (rule : PodCleanRule) :
    ShouldCleanupPod parseDur now pod rule =
      (decide (pod.phase = rule.phase) &&
       !(decide (annGet pod.annotations disabledAnnKey = "true")) &&
       decide (now - pod.creationTimestamp >
         effectiveTTL parseDur pod rule)) := by
  unfold ShouldCleanupPod
  by_cases h1 : pod.phase = rule.phase <;>
    by_cases h2 : annGet pod.annotations disabledAnnKey = "true" <;>
    simp [h1, h2]

/-- A rule whose written `ttl` value `time.ParseDuration` rejects makes
`unmarshalRule` fail, whatever its other fields (in particular `enabled`). -/
theorem unmarshalRule_error (parseDur : String → Option Int) (r : RawRule)
    (s : String) (httl : r.ttl = some s) (hp : parseDur s = none) :
    unmarshalRule parseDur r =
      Except.error ("invalid duration \"" ++ s ++ "\"") := by
  simp [unmarshalRule, Duration.unmarshalYAML, httl, hp]

/-- If any element of the rule list fails to unmarshal, the whole rule list
fails to unmarshal. -/
theorem unmarshalRules_error_of_mem (parseDur : String → Option Int)
    (l : List RawRule) (r : RawRule) (hr : r ∈ l) (e : String)
    (he : unmarshalRule parseDur r = Except.error e) :
    ∃ msg, unmarshalRules parseDur l = Except.error msg := by
  induction l with
  | nil => cases hr
  | cons a t ih =>
    cases h : unmarshalRule parseDur a with
    | error e2 =>
      refine ⟨e2, ?_⟩
      unfold unmarshalRules
      rw [h]
    | ok pr =>
      rcases List.mem_cons.mp hr with heq | hrt
      · subst heq; rw [h] at he; cases he
      · rcases ih hrt with ⟨msg, hm⟩
        refine ⟨msg, ?_⟩
        unfold unmarshalRules
        rw [h, hm]

/-- The run touches exactly as many pods as its batches hold. -/
theorem batchActions_length (deleteOk : Pod → Bool) (dryRun : Bool)
    (bs : List (List Pod)) :
    ((bs.map (processBatch deleteOk dryRun)).flatten).length =
      bs.flatten.length := by
  induction bs with
  | nil => rfl
  | cons b t ih =>
    simp only [List.map_cons, List.flatten_cons, List.length_append,
      processBatch_length, ih]

/-- Under dry-run, an entire run produces only dry-run log actions. -/
theorem flattenActions_dryRun_all (deleteOk : Pod → Bool)
    (bs : List (List Pod)) :
    (((bs.map (processBatch deleteOk true)).flatten).all
      fun a => !a.isDeleteCall) = true := by
  induction bs with
  | nil => rfl
  | cons b t ih =>
    simp only [List.map_cons, List.flatten_cons, List.all_append]
    rw [processBatch_dryRun_all, ih]
    rfl

/-- The ordered pod identities an entire run iterates over depend only on
the batches, not on the dry-run flag or the delete outcomes. -/
theorem flattenActions_target (deleteOk : Pod → Bool) (dryRun : Bool)
    (bs : List (List Pod)) :
    (((bs.map (processBatch deleteOk dryRun)).flatten).map
      DeleteAction.target) = (bs.flatten).map fun p => (p.name, p.ns) := by
  induction bs with
  | nil => rfl
  | cons b t ih =>
    simp only [List.map_cons, List.flatten_cons, List.map_append]
    rw [processBatch_target, ih]

/-!
Claim-level theorems.
-/

/-- C1: the claim that an empty rule `phase` means "no phase filter" fails
on the code.  `ShouldCleanupPod` compares the pod's phase to the rule's
`phase` unconditionally, so under a validated selector-only rule (empty
phase, one-hour TTL) a two-hour-old pod in phase `Succeeded` that passes
every other check is rejected. -/
theorem shouldCleanupPod_rejects_on_empty_rule_phase :
    PodCleanRule.Validate ruleSelectorOnly = Except.ok () ∧
    ruleSelectorOnly.phase = "" ∧
    annGet podSucceededOld.annotations disabledAnnKey ≠ "true" ∧
    7200000000000 - podSucceededOld.creationTimestamp >
      effectiveTTL parseNone podSucceededOld ruleSelectorOnly ∧
    ShouldCleanupPod parseNone 7200000000000 podSucceededOld
      ruleSelectorOnly = false := by
  refine ⟨rfl, rfl, by decide, by decide, rfl⟩

/-- C2: the claim that an absent or zero `batchSize` resolves to 10 during
load fails on the code.  `LoadConfig` never calls `SetDefaults`, so the
payload `rawNoBatchSize` (no `batchSize` key) is accepted with batch size 0,
even though `SetDefaults` itself would have produced 10. -/
theorem loadConfig_absent_batchSize_stays_zero :
    (LoadConfig parseNone rawNoBatchSize).map CleanupConfig.batchSize =
      Except.ok 0 ∧
    (CleanupConfig.SetDefaults cfgZeroBatch).batchSize = 10 := by
  exact ⟨rfl, rfl⟩

/-- C3: the claim that `BatchDeletePods` is never non-terminating fails on
the code.  With batch size 0 and a non-empty pod list the outer loop's index
(`i += batchSize`) stays 0 forever, so the loop guard `i < len(pods)` holds
after every number of iterations; and nothing rejects a zero batch size
upstream: `Validate` accepts it, since only negative values are errors. -/
theorem batchDelete_zero_batchSize_never_terminates (pods : List Pod)
    (hne : pods ≠ []) (k : Nat) :
    Nat.iterate (batchLoopStep 0) k 0 = 0 ∧
    batchLoopGuard pods (Nat.iterate (batchLoopStep 0) k 0) = true ∧
    CleanupConfig.Validate cfgZeroBatch = Except.ok () := by
  have hiter : ∀ j : Nat, Nat.iterate (batchLoopStep 0) j 0 = 0 := fun j =>
    Function.iterate_fixed (by simp [batchLoopStep]) j
  refine ⟨hiter k, ?_, rfl⟩
  rw [hiter k]
  unfold batchLoopGuard
  simp only [decide_eq_true_eq]
  exact List.length_pos.mpr hne

/-- C3 witness: at the concrete failing input (five pods, batch size 0) the
loop guard still holds after one million iterations. -/
theorem batchDelete_zero_batchSize_never_terminates_witness :
    batchLoopGuard fivePods (Nat.iterate (batchLoopStep 0) 1000000 0)
      = true :=
  (batchDelete_zero_batchSize_never_terminates fivePods
    (by simp [fivePods]) 1000000).2.1

/-- C4 counterexample: a run whose only deletion fails still returns no
error — exactly the same `nil` an all-success run returns, so the result
does not report the failure. -/
theorem batchDelete_failed_delete_reports_no_error :
    DeleteAction.deleteCall "old-pod" "default" false ∈
      (BatchDeletePods (fun _ => false) [podSucceededOld] 1 false).actions ∧
    (BatchDeletePods (fun _ => false) [podSucceededOld] 1 false).err
      = none := by
  have h0 : batchLoop [podSucceededOld] 1 0 = [[podSucceededOld]] := by
    rw [batchLoop_cons _ _ _ (by simp) (by omega),
      batchLoop_nil _ _ _ (by simp)]
    simp
  constructor
  · show DeleteAction.deleteCall "old-pod" "default" false ∈
      ((batchLoop [podSucceededOld] 1 0).map
        (processBatch (fun _ => false) false)).flatten
    rw [h0]
    simp [processBatch, podSucceededOld, mkPod]
  · rfl

/-- C4 amended: per-object deletion failures are only logged; processing
continues through every object (with batch size ≥ 1 exactly one action per
input pod is taken), and `BatchDeletePods` always returns `nil` — the
result never tells the caller whether any deletion failed. -/
theorem batchDelete_always_returns_no_error (deleteOk : Pod → Bool)
    (pods : List Pod) (B : Nat) (dryRun : Bool) :
    (BatchDeletePods deleteOk pods B dryRun).err = none ∧
    (1 ≤ B →
      (BatchDeletePods deleteOk pods B dryRun).actions.length =
        pods.length) := by
  refine ⟨rfl, fun hB => ?_⟩
  show (((batchLoop pods B 0).map (processBatch deleteOk dryRun)).flatten
    ).length = pods.length
  rw [batchActions_length,
    batchLoop_flatten pods B hB pods.length 0 (by omega)]
  simp

/-- C4 amended witness: at a concrete run with batch size 2 over five pods
whose deletions all fail, every pod is still acted on and the error is
`none`. -/
theorem batchDelete_always_returns_no_error_witness :
    (BatchDeletePods (fun _ => false) fivePods 2 false).err = none ∧
    (BatchDeletePods (fun _ => false) fivePods 2 false).actions.length
      = 5 := by
  have h := batchDelete_always_returns_no_error (fun _ => false) fivePods
    2 false
  refine ⟨h.1, ?_⟩
  rw [h.2 (by omega)]
  rfl

/-- C5: when the modification time has advanced past the tracked one but
the reload fails, one watcher tick leaves both the tracked modification
time and the live configuration exactly as they were, and so does every
number of further ticks over the same failing source; only a successful
load replaces the configuration and advances the tracked time. -/
theorem watchTick_failed_reload_preserves_state
    (parseDur : String → Option Int) (path : String) (st : WatchState)
    (mt : Int) (file : Option RawConfig) (hmt : mt > st.lastModTime) :
    (∀ e, LoadConfigFromFile parseDur path file = Except.error e →
      WatchConfigTick parseDur path st (some mt) file = st ∧
      ∀ k : Nat, Nat.iterate
        (fun s => WatchConfigTick parseDur path s (some mt) file) k st
          = st) ∧
    (∀ cfg, LoadConfigFromFile parseDur path file = Except.ok cfg →
      WatchConfigTick parseDur path st (some mt) file =
        { lastModTime := mt, config := cfg }) := by
  have hstep : WatchConfigTick parseDur path st (some mt) file =
      if mt > st.lastModTime then
        match LoadConfigFromFile parseDur path file with
        | Except.error _ => st
        | Except.ok newConfig => { lastModTime := mt, config := newConfig }
      else st := rfl
  constructor
  · intro e he
    have hfix : WatchConfigTick parseDur path st (some mt) file = st := by
      rw [hstep, if_pos hmt, he]
    exact ⟨hfix, fun k => Function.iterate_fixed hfix k⟩
  · intro cfg hc
    rw [hstep, if_pos hmt, hc]

/-- C5 witness: a concrete tick whose source became unreadable (load fails
with `UnreadableFile`) leaves the concrete prior state untouched. -/
theorem watchTick_failed_reload_preserves_state_witness :
    WatchConfigTick parseNone "config.yaml" ⟨0, cfgValid⟩ (some 5) none =
      ⟨0, cfgValid⟩ :=
  ((watchTick_failed_reload_preserves_state parseNone "config.yaml"
      ⟨0, cfgValid⟩ 5 none (by decide)).1
    (LoadError.unreadableFile "config.yaml") rfl).1

/-- C6: under dry-run no delete call is ever issued, while the batches and
the ordered pod identities iterated over are identical to a non-dry-run
run on the same input — whatever outcomes the delete capability would have
produced there. -/
theorem batchDelete_dryRun_no_delete_calls
    (deleteOk deleteOk2 : Pod → Bool) (pods : List Pod) (B : Nat) :
    ((BatchDeletePods deleteOk pods B true).actions.all
      fun a => !a.isDeleteCall) = true ∧
    (BatchDeletePods deleteOk pods B true).batches =
      (BatchDeletePods deleteOk2 pods B false).batches ∧
    (BatchDeletePods deleteOk pods B true).actions.map
        DeleteAction.target =
      (BatchDeletePods deleteOk2 pods B false).actions.map
        DeleteAction.target := by
  refine ⟨flattenActions_dryRun_all deleteOk (batchLoop pods B 0), rfl, ?_⟩
  show ((batchLoop pods B 0).map (processBatch deleteOk true)).flatten.map
      DeleteAction.target =
    ((batchLoop pods B 0).map (processBatch deleteOk2 false)).flatten.map
      DeleteAction.target
  rw [flattenActions_target, flattenActions_target]

/-- C7: the eligibility test of `ShouldCleanupPod` is strict: acceptance
implies the age exceeds the effective TTL, and a pod whose age equals the
effective TTL exactly is not eligible. -/
theorem shouldCleanupPod_strict_boundary (parseDur : String → Option Int)
    (now : Int) (pod : Pod) (rule : PodCleanRule) :
    (ShouldCleanupPod parseDur now pod rule = true →
      now - pod.creationTimestamp > effectiveTTL parseDur pod rule) ∧
    (now - pod.creationTimestamp = effectiveTTL parseDur pod rule →
      ShouldCleanupPod parseDur now pod rule = false) := by
  constructor
  · intro h
    rw [shouldCleanupPod_eq] at h
    simp only [Bool.and_eq_true, decide_eq_true_eq] at h
    exact h.2
  · intro heq
    rw [shouldCleanupPod_eq, heq]
    simp

/-- C7 witness: a pod exactly one hour old under a one-hour-TTL rule is
not eligible. -/
theorem shouldCleanupPod_strict_boundary_witness :
    ShouldCleanupPod parseNone 3600000000000 podBoundary ruleSucceeded1h
      = false :=
  (shouldCleanupPod_strict_boundary parseNone 3600000000000 podBoundary
    ruleSucceeded1h).2 (by decide)

/-- C8: the TTL override annotation, when it parses, replaces the rule TTL
as the effective TTL; when it does not parse, the rule TTL is used, and in
both cases `ShouldCleanupPod` still evaluates to its normal gate
conjunction — there is no error path. -/
theorem shouldCleanupPod_ttl_override (parseDur : String → Option Int)
    (now : Int) (pod : Pod) (rule : PodCleanRule) (s : String)
    (hs : annLookup pod.annotations ttlAnnKey = some s) :
    (∀ d, parseDur s = some d → effectiveTTL parseDur pod rule = d) ∧
    (parseDur s = none →
      effectiveTTL parseDur pod rule = rule.ttl.duration) ∧
    ShouldCleanupPod parseDur now pod rule =
      (decide (pod.phase = rule.phase) &&
       !(decide (annGet pod.annotations disabledAnnKey = "true")) &&
       decide (now - pod.creationTimestamp >
         effectiveTTL parseDur pod rule)) := by
  refine ⟨?_, ?_, shouldCleanupPod_eq parseDur now pod rule⟩
  · intro d hd
    simp [effectiveTTL, hs, hd]
  · intro hd
    simp [effectiveTTL, hs, hd]

/-- C8 witness: a concrete pod with the unparsable override `"garbage"`
falls back to the rule's one-hour TTL. -/
theorem shouldCleanupPod_ttl_override_witness :
    annLookup podBadOverride.annotations ttlAnnKey = some "garbage" ∧
    effectiveTTL parseNone podBadOverride ruleSucceeded1h =
      ruleSucceeded1h.ttl.duration :=
  ⟨rfl,
    (shouldCleanupPod_ttl_override parseNone 0 podBadOverride
      ruleSucceeded1h "garbage" rfl).2.1 rfl⟩

/-- C9: for batch size B ≥ 1, `BatchDeletePods` slices the input into
exactly ceil(N/B) consecutive batches whose concatenation in processing
order is the input sequence itself. -/
theorem batchDelete_partitions_input (deleteOk : Pod → Bool)
    (pods : List Pod) (B : Nat) (dryRun : Bool) (hB : 1 ≤ B) :
    (BatchDeletePods deleteOk pods B dryRun).batches.length =
      (pods.length + B - 1) / B ∧
    (BatchDeletePods deleteOk pods B dryRun).batches.flatten = pods := by
  constructor
  · show (batchLoop pods B 0).length = (pods.length + B - 1) / B
    rw [batchLoop_length pods B hB pods.length 0 (by omega), Nat.sub_zero]
  · show (batchLoop pods B 0).flatten = pods
    rw [batchLoop_flatten pods B hB pods.length 0 (by omega)]
    exact List.drop_zero pods

/-- C9 witness: five pods with batch size 2 give three batches whose
concatenation is the input. -/
theorem batchDelete_partitions_input_witness :
    (BatchDeletePods (fun _ => true) fivePods 2 true).batches.length = 3 ∧
    (BatchDeletePods (fun _ => true) fivePods 2 true).batches.flatten =
      fivePods := by
  have h := batchDelete_partitions_input (fun _ => true) fivePods 2 true
    (by omega)
  exact ⟨h.1.trans (by rfl), h.2⟩

/-- C10: any payload in which some rule's written `ttl` does not parse as a
duration — the rule's `enabled` flag playing no role — makes `LoadConfig`
fail with the unmarshalling (parse) error; disabled rules are inert only
for `Validate`, which accepts any disabled rule. -/
theorem loadConfig_unparsable_ttl_fails (parseDur : String → Option Int)
    (raw : RawConfig) (r : RawRule) (s : String)
    (hr : r ∈ (raw.podCleanupConfig.getD ⟨none, none⟩).rules.getD [])
    (httl : r.ttl = some s) (hparse : parseDur s = none) :
    (∃ msg, LoadConfig parseDur raw =
      Except.error (LoadError.parseError msg)) ∧
    (∀ rule : PodCleanRule, rule.enabled = false →
      PodCleanRule.Validate rule = Except.ok ()) := by
  constructor
  · rcases unmarshalRules_error_of_mem parseDur _ r hr _
      (unmarshalRule_error parseDur r s httl hparse) with ⟨msg, hm⟩
    refine ⟨"failed to unmarshal config: " ++ msg, ?_⟩
    unfold LoadConfig unmarshalConfig
    rw [hm]
  · intro rule hrule
    simp [PodCleanRule.Validate, hrule]

/-- C10 witness: the concrete payload whose single, disabled rule has
`ttl: "1pk"` is rejected by `LoadConfig` with a parse error. -/
theorem loadConfig_unparsable_ttl_fails_witness :
    (∃ msg, LoadConfig parseNone rawBadTTLConfig =
      Except.error (LoadError.parseError msg)) ∧
    rawRuleBadTTL.enabled = some false :=
  ⟨(loadConfig_unparsable_ttl_fails parseNone rawBadTTLConfig rawRuleBadTTL
      "1pk" (by simp [rawBadTTLConfig]) rfl rfl).1, rfl⟩

end Kubeclean
